import Mathlib

/-!
Verification of the Elasticsearch client resolution and index-routing logic
of the loghub query module (modules/extensions/loghub/index/query/clients.go).

The Go code is shallowly embedded: the persistence layer (log-deployment and
log-instance lookups), the cluster registry and the elastic client constructor
are modelled as function fields of a Provider structure; each Go function of
clients.go becomes a Lean definition over that structure.
-/

namespace Loghub

/-- Log version constant LogVersion1 = "1.0.0" from clients.go. -/
def LogVersion1 : String := "1.0.0"

/-- Log version constant LogVersion2 = "2.0.0" from clients.go. -/
def LogVersion2 : String := "2.0.0"

/-- Modelled from the spec: the log-type enumeration constant
db.LogTypeLogAnalytics of the msp instance db package (not under src/);
the spec names the variant "log-analytics". -/
def LogTypeLogAnalytics : String := "log-analytics"

/-- Modelled from the spec: the log-type enumeration constant
db.LogTypeLogService of the msp instance db package (not under src/);
the spec names the variant "log-service". -/
def LogTypeLogService : String := "log-service"

/-- One LogDeployment row, the fields of the db row read by clients.go. -/
structure LogDeployment where
  orgID : String
  clusterName : String
  clusterType : Int
  esURL : String
  esConfig : String
  collectorURL : String
  logType : String
  deriving DecidableEq, Repr

/-- One LogInstance row, the fields read by clients.go. -/
structure LogInstance where
  logKey : String
  clusterName : String
  projectId : String
  workspace : String
  deriving DecidableEq, Repr

/-- A resolved search client: the observable fields of ESClient from
clients.go (the opaque elastic handle is dropped; URLs, LogVersion and
Indices are what the claims speak about). -/
structure ESClient where
  urls : String
  logVersion : String
  indices : List String
  deriving DecidableEq, Repr

/-- One key/value filter pair of a LogRequest. -/
structure Filter where
  key : String
  value : String
  deriving DecidableEq, Repr

/-- Modelled from the spec: the LogRequest input (organization id is passed
separately), with the fields clients.go reads: optional cluster name,
optional addon identifier, and the list of filter pairs. -/
structure LogRequest where
  clusterName : String
  addon : String
  filters : List Filter
  deriving DecidableEq, Repr

/-- The provider: the dual-read configuration flag and the external
collaborators of clients.go, modelled as functions. A failing external call
is None; GetByLogKey returning no instance (or erring) is None; the elastic
client constructor is abstracted to a success predicate on the row. -/
structure Provider where
  queryBackES : Bool
  listClusters : Int → Option (List String)
  queryByOrgIDAndClusters : Int → List String → Option (List LogDeployment)
  getByLogKey : String → Option LogInstance
  getListByClusterAndProjectIdAndWorkspace : String → String → String → List LogInstance
  newClientOk : LogDeployment → Bool

/-- Embeds strings.ReplaceAll(addon, "*", "") of getESClients: replacing
every occurrence of the one-character pattern "*" by the empty string is
dropping every star character. -/
def stripStar (s : String) : String :=
  String.mk (s.data.filter (fun c => c ≠ '*'))

/-- Embeds strings.TrimSpace of getESClientsFromLogAnalyticsByCluster:
whitespace is removed from both ends. -/
def trimSpace (s : String) : String :=
  String.mk (((s.data.dropWhile Char.isWhitespace).reverse.dropWhile
    Char.isWhitespace).reverse)

/-- Embeds getLogIndices of clients.go. -/
def getLogIndices (pre orgId : String) (addons : List String) : List String :=
  if addons.length > 0 then
    addons.flatMap fun addon => [pre ++ addon, pre ++ addon ++ "-*"]
  else if orgId.length > 0 then [pre ++ orgId]
  else [pre ++ "*"]

/-- Embeds getCenterESClients of clients.go: the central-cluster client pair
(URLs "-" and "-b" as in the source), doubled when the QueryBackES flag is
on. -/
def getCenterESClients (p : Provider) (indices : List String) : List ESClient :=
  if p.queryBackES then
    [{ urls := "-", logVersion := "", indices := indices },
     { urls := "-b", logVersion := "", indices := indices }]
  else
    [{ urls := "-", logVersion := "", indices := indices }]

/-- Embeds the addon sibling-group loop of
getESClientsFromLogAnalyticsByCluster: walk the instance list, keeping each
log key the first time it is seen (seen keys accumulate in the second
argument, mirroring the keyCaches map of the source). -/
def collectAddonKeys : List LogInstance → List String → List String
  | [], _ => []
  | i :: rest, seen =>
    if i.logKey ∈ seen then collectAddonKeys rest seen
    else i.logKey :: collectAddonKeys rest (i.logKey :: seen)

/-- Embeds the addons computation of getESClientsFromLogAnalyticsByCluster:
empty when no addon was supplied; else the deduplicated log keys of the
sibling group when the instance is found, and the single supplied addon
when it is not. -/
def expandAddon (p : Provider) (addon : String) : List String :=
  if addon.length > 0 then
    match p.getByLogKey addon with
    | some logInstance =>
      collectAddonKeys
        (p.getListByClusterAndProjectIdAndWorkspace
          logInstance.clusterName logInstance.projectId logInstance.workspace)
        []
    | none => [addon]
  else []

/-- Embeds the client record built for one deployment row that passed the
URL and constructor checks: the version/prefix decision on the trimmed
collector URL and the log type, and the orgId scoping rule for the legacy
log-analytics log type. -/
def materializeClient (p : Provider) (addon : String) (d : LogDeployment) : ESClient :=
  let addons := expandAddon p addon
  let orgId := if d.logType = LogTypeLogAnalytics then "" else d.orgID
  let collectorURL := trimSpace d.collectorURL
  if collectorURL.length > 0 ∨ d.logType = LogTypeLogService then
    { urls := d.esURL, logVersion := LogVersion2,
      indices := getLogIndices "rlogs-" orgId addons }
  else
    { urls := d.esURL, logVersion := LogVersion1,
      indices := getLogIndices "spotlogs-" orgId addons }

/-- Embeds the body of the per-row loop of
getESClientsFromLogAnalyticsByCluster: a row with an empty ESURL is skipped,
a row whose elastic client fails to construct is skipped, any other row
yields exactly one client. -/
def clientOfDeployment (p : Provider) (addon : String) (d : LogDeployment) :
    Option ESClient :=
  if d.esURL.length ≤ 0 then none
  else if p.newClientOk d then some (materializeClient p addon d)
  else none

/-- Embeds getESClientsFromLogAnalyticsByCluster of clients.go: a failing
deployment query yields nil; otherwise the per-row loop over the batch. -/
def getESClientsFromLogAnalyticsByCluster (p : Provider) (orgID : Int)
    (addon : String) (clusterNames : List String) : List ESClient :=
  match p.queryByOrgIDAndClusters orgID clusterNames with
  | none => []
  | some list => list.filterMap (clientOfDeployment p addon)

/-- Embeds getESClientsFromLogAnalytics of clients.go: list the org's
clusters (nil on error) and resolve deployments across all of them with no
addon. -/
def getESClientsFromLogAnalytics (p : Provider) (orgID : Int) : List ESClient :=
  match p.listClusters orgID with
  | none => []
  | some clusterNames =>
    getESClientsFromLogAnalyticsByCluster p orgID "" clusterNames

/-- Embeds the filters map of getESClients: the fold of the filter list into
a map (later pairs overwrite earlier ones), read back at one key, with the
Go zero value "" when the key is absent. -/
def filtersMapGet (filters : List Filter) (k : String) : String :=
  filters.foldl (fun acc item => if item.key = k then item.value else acc) ""

/-- Embeds getESClients of clients.go: the cluster/addon validation gate,
then the origin-filter dispatch (sls, dice with fallback, sentinel, union). -/
def getESClients (p : Provider) (orgID : Int) (req : LogRequest) :
    List ESClient :=
  if req.clusterName.length > 0 ∨ req.addon.length > 0 then
    if req.clusterName.length ≤ 0 ∨ req.addon.length ≤ 0 then []
    else
      getESClientsFromLogAnalyticsByCluster p orgID
        (stripStar req.addon) [req.clusterName]
  else
    if filtersMapGet req.filters "origin" = "sls" then
      getCenterESClients p ["sls-*"]
    else if filtersMapGet req.filters "origin" = "dice" then
      if (getESClientsFromLogAnalytics p orgID).length ≤ 0 then
        getCenterESClients p ["rlogs-*"]
      else getESClientsFromLogAnalytics p orgID
    else if filtersMapGet req.filters "origin" ≠ "" then
      getCenterESClients p ["__not-exist__*"]
    else getCenterESClients p ["sls-*"] ++ getESClientsFromLogAnalytics p orgID

/-! Reference definitions written from the spec's words, for refinement
claims: they are compared with the embedded source functions above. -/

/-- Index list for a non-empty addon group: for each addon key, in input
order, the exact index name and its wildcard-dated variant. -/
def addonIndices (pre : String) : List String → List String
  | [] => []
  | addon :: rest =>
    (pre ++ addon) :: (pre ++ addon ++ "-*") :: addonIndices pre rest

/-- Index Namer as the spec words it: addon keys take precedence, then an
org scope, then the prefix-wide wildcard. -/
def getLogIndicesSpec (pre orgId : String) (addons : List String) :
    List String :=
  match addons with
  | [] => if orgId ≠ "" then [pre ++ orgId] else [pre ++ "*"]
  | _ :: _ => addonIndices pre addons

/-- Deduplication as the spec words it: keep the first occurrence of each
key, preserving first-seen order. -/
def firstSeenDedup : List String → List String
  | [] => []
  | x :: xs => x :: firstSeenDedup (xs.filter (fun y => y ≠ x))
  termination_by l => l.length
  decreasing_by
    simp only [List.length_cons]
    exact Nat.lt_succ_of_le (List.length_filter_le _ _)

/-! Helper lemmas. -/

/-- A string has positive length exactly when it is non-empty. -/
theorem string_length_pos_iff (s : String) : 0 < s.length ↔ s ≠ "" := by
  cases s with
  | mk data =>
    simp [String.length, String.ext_iff]
    exact List.length_pos

/-- A string has length at most zero exactly when it is empty. -/
theorem string_length_le_zero_iff (s : String) : s.length ≤ 0 ↔ s = "" := by
  rw [Nat.le_zero]
  cases s with
  | mk data => simp [String.length, String.ext_iff]

theorem flatMap_eq_addonIndices (pre : String) (l : List String) :
    (l.flatMap fun addon => [pre ++ addon, pre ++ addon ++ "-*"])
      = addonIndices pre l := by
  induction l with
  | nil => rfl
  | cons a rest ih => simp [List.flatMap_cons, addonIndices, ih]

/-- C3: getLogIndices agrees with the spec's reference definition
everywhere, and on the spec's concrete example it yields exactly the four
listed indices in order. -/
theorem getLogIndices_refines_spec :
    (∀ (pre orgId : String) (addons : List String),
      getLogIndices pre orgId addons = getLogIndicesSpec pre orgId addons)
    ∧ getLogIndices "rlogs-" "" ["a", "b"]
        = ["rlogs-a", "rlogs-a-*", "rlogs-b", "rlogs-b-*"] := by
  constructor
  · intro pre orgId addons
    cases addons with
    | nil =>
      simp only [getLogIndices, getLogIndicesSpec, List.length_nil]
      rw [if_neg (by decide : ¬ (0 : Nat) > 0)]
      by_cases h : orgId = ""
      · subst h
        rw [if_neg (by decide : ¬ ("" : String).length > 0),
          if_neg (by simp)]
      · rw [if_pos ((string_length_pos_iff _).2 h), if_pos h]
    | cons a rest =>
      simp only [getLogIndices, getLogIndicesSpec, List.length_cons]
      rw [if_pos (Nat.succ_pos _)]
      exact flatMap_eq_addonIndices pre (a :: rest)
  · decide

/-- C2: a request carrying exactly one of cluster name and addon resolves
to zero clients, for every provider, organization id and filter list. -/
theorem one_of_cluster_addon_yields_no_clients (p : Provider) (orgID : Int)
    (req : LogRequest)
    (h : (req.clusterName ≠ "" ∧ req.addon = "")
      ∨ (req.clusterName = "" ∧ req.addon ≠ "")) :
    getESClients p orgID req = [] := by
  unfold getESClients
  rcases h with ⟨hc, ha⟩ | ⟨hc, ha⟩
  · rw [if_pos (Or.inl ((string_length_pos_iff _).2 hc))]
    rw [if_pos (Or.inr ((string_length_le_zero_iff _).2 ha))]
  · rw [if_pos (Or.inr ((string_length_pos_iff _).2 ha))]
    rw [if_pos (Or.inl ((string_length_le_zero_iff _).2 hc))]

/-- Example provider used by the concrete witnesses: no back-reader, an
empty cluster list, an empty deployment batch, no instances. -/
def pEx : Provider where
  queryBackES := false
  listClusters := fun _ => some []
  queryByOrgIDAndClusters := fun _ _ => some []
  getByLogKey := fun _ => none
  getListByClusterAndProjectIdAndWorkspace := fun _ _ _ => []
  newClientOk := fun _ => true

/-- C2 witness at a concrete request with a cluster name but no addon. -/
theorem one_of_cluster_addon_yields_no_clients_witness :
    ((("c" : String) ≠ "" ∧ ("" : String) = "")
      ∨ (("c" : String) = "" ∧ ("" : String) ≠ ""))
    ∧ getESClients pEx 1 { clusterName := "c", addon := "", filters := [] }
        = [] :=
  ⟨Or.inl ⟨by decide, rfl⟩,
    one_of_cluster_addon_yields_no_clients pEx 1
      { clusterName := "c", addon := "", filters := [] }
      (Or.inl ⟨by decide, rfl⟩)⟩

theorem filtersMapGet_foldl_skip (k : String) (l : List Filter)
    (acc : String) (h : ∀ f ∈ l, f.key ≠ k) :
    l.foldl (fun acc item => if item.key = k then item.value else acc) acc
      = acc := by
  induction l generalizing acc with
  | nil => rfl
  | cons f rest ih =>
    simp only [List.foldl_cons]
    rw [if_neg (h f (List.mem_cons_self f rest))]
    exact ih acc fun g hg => h g (List.mem_cons_of_mem f hg)

/-- Folding the filter list keeps only the last pair with the given key. -/
theorem filtersMapGet_last (fs gs : List Filter) (k v : String)
    (hg : ∀ f ∈ gs, f.key ≠ k) :
    filtersMapGet (fs ++ { key := k, value := v } :: gs) k = v := by
  unfold filtersMapGet
  rw [List.foldl_append]
  simp only [List.foldl_cons, if_true]
  exact filtersMapGet_foldl_skip k gs v hg

/-- Folding a filter list in which every pair at the key has an empty value
yields the empty string. -/
theorem filtersMapGet_empty (k : String) (l : List Filter)
    (h : ∀ f ∈ l, f.key = k → f.value = "") :
    filtersMapGet l k = "" := by
  unfold filtersMapGet
  have step : ∀ (l' : List Filter) (acc : String),
      (∀ f ∈ l', f.key = k → f.value = "") → acc = "" →
      l'.foldl (fun acc item => if item.key = k then item.value else acc) acc
        = "" := by
    intro l'
    induction l' with
    | nil => intro acc _ hacc; exact hacc
    | cons f rest ih =>
      intro acc hl hacc
      simp only [List.foldl_cons]
      refine ih _ (fun g hg => hl g (List.mem_cons_of_mem f hg)) ?_
      by_cases hf : f.key = k
      · rw [if_pos hf]; exact hl f (List.mem_cons_self f rest) hf
      · rw [if_neg hf]; exact hacc
  exact step l "" h rfl

/-- With empty cluster name and addon, getESClients depends on the filter
list only through the folded value of the key "origin". -/
theorem getESClients_congr_origin (p : Provider) (orgID : Int)
    (fs1 fs2 : List Filter)
    (h : filtersMapGet fs1 "origin" = filtersMapGet fs2 "origin") :
    getESClients p orgID { clusterName := "", addon := "", filters := fs1 }
      = getESClients p orgID
          { clusterName := "", addon := "", filters := fs2 } := by
  unfold getESClients
  rw [h]

/-- C1 counterexample: a request that carries the filter pair origin=sls
together with a cluster name and an addon is routed by the cluster/addon
gate, never reaching the origin dispatch; here it yields zero clients while
the central-cluster clients for sls-* are one client. -/
theorem origin_sls_overridden_by_cluster_fields :
    getESClients pEx 1
      { clusterName := "c", addon := "a",
        filters := [{ key := "origin", value := "sls" }] }
      ≠ getCenterESClients pEx ["sls-*"] := by
  decide

/-- C1 amended: for a request with empty cluster name and addon whose
folded filters give origin = "sls", getESClients returns exactly the
central-cluster clients scoped to the single pattern sls-* (one client,
or two when the dual-read flag is on), regardless of the other filters and
the organization id. -/
theorem origin_sls_routes_to_center (p : Provider) (orgID : Int)
    (req : LogRequest) (hc : req.clusterName = "") (ha : req.addon = "")
    (ho : filtersMapGet req.filters "origin" = "sls") :
    getESClients p orgID req = getCenterESClients p ["sls-*"]
    ∧ (getCenterESClients p ["sls-*"]).length
        = (if p.queryBackES then 2 else 1)
    ∧ ∀ c ∈ getESClients p orgID req, c.indices = ["sls-*"] := by
  have hmain : getESClients p orgID req = getCenterESClients p ["sls-*"] := by
    unfold getESClients
    rw [if_neg (by rw [hc, ha]; simp), ho, if_pos rfl]
  refine ⟨hmain, ?_, ?_⟩
  · cases hb : p.queryBackES <;> simp [getCenterESClients, hb]
  · intro c hcm
    rw [hmain] at hcm
    cases hb : p.queryBackES <;> simp [getCenterESClients, hb] at hcm
    · rw [hcm]
    · rcases hcm with hcm | hcm <;> rw [hcm]

/-- C1 amended witness at a concrete provider and request. -/
theorem origin_sls_routes_to_center_witness :
    (filtersMapGet [{ key := "origin", value := "sls" }] "origin" = "sls")
    ∧ (getESClients pEx 0
        { clusterName := "", addon := "",
          filters := [{ key := "origin", value := "sls" }] }
        = getCenterESClients pEx ["sls-*"]
      ∧ (getCenterESClients pEx ["sls-*"]).length
          = (if pEx.queryBackES then 2 else 1)
      ∧ ∀ c ∈ getESClients pEx 0
          { clusterName := "", addon := "",
            filters := [{ key := "origin", value := "sls" }] },
          c.indices = ["sls-*"]) :=
  ⟨by decide,
    origin_sls_routes_to_center pEx 0
      { clusterName := "", addon := "",
        filters := [{ key := "origin", value := "sls" }] }
      rfl rfl (by decide)⟩

/-- C5: with empty cluster name and addon and every origin filter pair (if
any) carrying an empty value, getESClients returns the central sls-*
clients followed by all clients of the organization's own log-analytics
deployments, as a plain concatenation with no deduplication. -/
theorem no_origin_yields_union (p : Provider) (orgID : Int)
    (req : LogRequest) (hc : req.clusterName = "") (ha : req.addon = "")
    (ho : ∀ f ∈ req.filters, f.key = "origin" → f.value = "") :
    getESClients p orgID req
      = getCenterESClients p ["sls-*"]
        ++ getESClientsFromLogAnalytics p orgID := by
  have ho' : filtersMapGet req.filters "origin" = "" :=
    filtersMapGet_empty "origin" req.filters ho
  unfold getESClients
  rw [if_neg (by rw [hc, ha]; simp), ho']
  simp

/-- C5 witness at a concrete provider and a request with no filters. -/
theorem no_origin_yields_union_witness :
    (∀ f ∈ ([] : List Filter), f.key = "origin" → f.value = "")
    ∧ getESClients pEx 0 { clusterName := "", addon := "", filters := [] }
        = getCenterESClients pEx ["sls-*"]
          ++ getESClientsFromLogAnalytics pEx 0 :=
  ⟨by simp,
    no_origin_yields_union pEx 0
      { clusterName := "", addon := "", filters := [] } rfl rfl (by simp)⟩

/-- C6: with empty cluster name and addon and folded filters giving
origin = "dice", getESClients returns the central rlogs-* clients when
the organization's own log-analytics resolution yields zero clients, and
exactly those clients otherwise. -/
theorem origin_dice_routes (p : Provider) (orgID : Int) (req : LogRequest)
    (hc : req.clusterName = "") (ha : req.addon = "")
    (ho : filtersMapGet req.filters "origin" = "dice") :
    getESClients p orgID req
      = if getESClientsFromLogAnalytics p orgID = []
        then getCenterESClients p ["rlogs-*"]
        else getESClientsFromLogAnalytics p orgID := by
  unfold getESClients
  rw [if_neg (by rw [hc, ha]; simp), ho]
  rw [if_neg (by decide), if_pos rfl]
  simp [Nat.le_zero, List.length_eq_zero]

/-- C6 witness: a concrete organization with no usable deployments falls
back to the central rlogs-* clients. -/
theorem origin_dice_routes_witness :
    (filtersMapGet [{ key := "origin", value := "dice" }] "origin" = "dice")
    ∧ getESClients pEx 0
        { clusterName := "", addon := "",
          filters := [{ key := "origin", value := "dice" }] }
        = if getESClientsFromLogAnalytics pEx 0 = []
          then getCenterESClients pEx ["rlogs-*"]
          else getESClientsFromLogAnalytics pEx 0 :=
  ⟨by decide,
    origin_dice_routes pEx 0
      { clusterName := "", addon := "",
        filters := [{ key := "origin", value := "dice" }] }
      rfl rfl (by decide)⟩

/-- C10: with empty cluster name and addon, only the last filter pair with
key "origin" determines the outcome of getESClients; every earlier pair,
whatever its key, is ignored. -/
theorem last_origin_pair_wins (p : Provider) (orgID : Int)
    (fs gs : List Filter) (v : String)
    (hg : ∀ f ∈ gs, f.key ≠ "origin") :
    getESClients p orgID
      { clusterName := "", addon := "",
        filters := fs ++ { key := "origin", value := v } :: gs }
      = getESClients p orgID
          { clusterName := "", addon := "",
            filters := [{ key := "origin", value := v }] } := by
  refine getESClients_congr_origin p orgID _ _ ?_
  rw [filtersMapGet_last fs gs "origin" v hg]
  rw [show ([{ key := "origin", value := v }] : List Filter)
      = [] ++ { key := "origin", value := v } :: [] from rfl]
  rw [filtersMapGet_last [] [] "origin" v (by simp)]

/-- C10 witness: an earlier origin=sls pair is overridden by a later
origin=dice pair. -/
theorem last_origin_pair_wins_witness :
    (∀ f ∈ ([] : List Filter), f.key ≠ "origin")
    ∧ getESClients pEx 0
        { clusterName := "", addon := "",
          filters := [{ key := "origin", value := "sls" }]
            ++ { key := "origin", value := "dice" } :: [] }
        = getESClients pEx 0
            { clusterName := "", addon := "",
              filters := [{ key := "origin", value := "dice" }] } :=
  ⟨by simp,
    last_origin_pair_wins pEx 0 [{ key := "origin", value := "sls" }] []
      "dice" (by simp)⟩

/-- The Index Namer never returns an empty list of patterns. -/
theorem getLogIndices_ne_nil (pre orgId : String) (addons : List String) :
    getLogIndices pre orgId addons ≠ [] := by
  cases addons with
  | nil =>
    unfold getLogIndices
    rw [if_neg (by decide : ¬ ([] : List String).length > 0)]
    split <;> simp
  | cons a rest =>
    unfold getLogIndices
    rw [if_pos (by simp)]
    simp [List.flatMap_cons]

/-- Every central-cluster client has a non-empty URL and exactly the given
index list. -/
theorem mem_getCenterESClients (p : Provider) (idx : List String)
    (c : ESClient) (h : c ∈ getCenterESClients p idx) :
    c.urls ≠ "" ∧ c.indices = idx := by
  unfold getCenterESClients at h
  by_cases hb : p.queryBackES
  · rw [if_pos hb] at h
    simp only [List.mem_cons, List.mem_singleton] at h
    rcases h with h | h | h
    · rw [h]; exact ⟨by simp, rfl⟩
    · rw [h]; exact ⟨by simp, rfl⟩
    · simp at h
  · rw [if_neg hb] at h
    simp only [List.mem_singleton] at h
    rw [h]; exact ⟨by simp, rfl⟩

/-- The client materialized for a row with a non-empty ESURL has non-empty
indices and a non-empty URL. -/
theorem materializeClient_wellformed (p : Provider) (addon : String)
    (d : LogDeployment) (hd : d.esURL ≠ "") :
    (materializeClient p addon d).indices ≠ []
    ∧ (materializeClient p addon d).urls ≠ "" := by
  by_cases hcond : (trimSpace d.collectorURL).length > 0
    ∨ d.logType = LogTypeLogService
  · simp [materializeClient, hcond, hd, getLogIndices_ne_nil]
  · simp [materializeClient, hcond, hd, getLogIndices_ne_nil]

/-- Every client produced from a deployment row has non-empty indices and a
non-empty URL. -/
theorem clientOfDeployment_wellformed (p : Provider) (addon : String)
    (d : LogDeployment) (c : ESClient)
    (h : clientOfDeployment p addon d = some c) :
    c.indices ≠ [] ∧ c.urls ≠ "" := by
  unfold clientOfDeployment at h
  by_cases h1 : d.esURL.length ≤ 0
  · rw [if_pos h1] at h; exact absurd h (by simp)
  · rw [if_neg h1] at h
    by_cases h2 : p.newClientOk d
    · rw [if_pos h2] at h
      have hc := Option.some.inj h
      have hd : d.esURL ≠ "" :=
        fun he => h1 ((string_length_le_zero_iff d.esURL).2 he)
      rw [← hc]
      exact materializeClient_wellformed p addon d hd
    · rw [if_neg h2] at h; exact absurd h (by simp)

/-- Every client of a per-cluster deployment resolution is well formed. -/
theorem byCluster_wellformed (p : Provider) (orgID : Int) (addon : String)
    (cns : List String) (c : ESClient)
    (h : c ∈ getESClientsFromLogAnalyticsByCluster p orgID addon cns) :
    c.indices ≠ [] ∧ c.urls ≠ "" := by
  unfold getESClientsFromLogAnalyticsByCluster at h
  cases hq : p.queryByOrgIDAndClusters orgID cns with
  | none => rw [hq] at h; simp at h
  | some list =>
    rw [hq] at h
    rcases List.mem_filterMap.1 h with ⟨d, _, hd⟩
    exact clientOfDeployment_wellformed p addon d c hd

/-- Every client of the all-clusters deployment resolution is well
formed. -/
theorem fromLogAnalytics_wellformed (p : Provider) (orgID : Int)
    (c : ESClient) (h : c ∈ getESClientsFromLogAnalytics p orgID) :
    c.indices ≠ [] ∧ c.urls ≠ "" := by
  unfold getESClientsFromLogAnalytics at h
  cases hq : p.listClusters orgID with
  | none => rw [hq] at h; simp at h
  | some cns =>
    rw [hq] at h
    exact byCluster_wellformed p orgID "" cns c h

/-- C4: every client returned by getESClients, on every path, has at least
one index pattern and a non-empty URLs string. -/
theorem every_client_wellformed (p : Provider) (orgID : Int)
    (req : LogRequest) (c : ESClient) (h : c ∈ getESClients p orgID req) :
    c.indices ≠ [] ∧ c.urls ≠ "" := by
  unfold getESClients at h
  by_cases g1 : req.clusterName.length > 0 ∨ req.addon.length > 0
  · rw [if_pos g1] at h
    by_cases g2 : req.clusterName.length ≤ 0 ∨ req.addon.length ≤ 0
    · rw [if_pos g2] at h; simp at h
    · rw [if_neg g2] at h
      exact byCluster_wellformed _ _ _ _ _ h
  · rw [if_neg g1] at h
    by_cases o1 : filtersMapGet req.filters "origin" = "sls"
    · rw [if_pos o1] at h
      exact ⟨((mem_getCenterESClients _ _ _ h).2 ▸ (by simp)),
        (mem_getCenterESClients _ _ _ h).1⟩
    · rw [if_neg o1] at h
      by_cases o2 : filtersMapGet req.filters "origin" = "dice"
      · rw [if_pos o2] at h
        by_cases o3 : (getESClientsFromLogAnalytics p orgID).length ≤ 0
        · rw [if_pos o3] at h
          exact ⟨((mem_getCenterESClients _ _ _ h).2 ▸ (by simp)),
            (mem_getCenterESClients _ _ _ h).1⟩
        · rw [if_neg o3] at h
          exact fromLogAnalytics_wellformed p orgID c h
      · rw [if_neg o2] at h
        by_cases o4 : filtersMapGet req.filters "origin" ≠ ""
        · rw [if_pos o4] at h
          exact ⟨((mem_getCenterESClients _ _ _ h).2 ▸ (by simp)),
            (mem_getCenterESClients _ _ _ h).1⟩
        · rw [if_neg o4] at h
          rcases List.mem_append.1 h with h' | h'
          · exact ⟨((mem_getCenterESClients _ _ _ h').2 ▸ (by simp)),
              (mem_getCenterESClients _ _ _ h').1⟩
          · exact fromLogAnalytics_wellformed p orgID c h'

/-- C4 witness: the invariant instantiated at a concrete client of the
union path. -/
theorem every_client_wellformed_witness :
    ({ urls := "-", logVersion := "", indices := ["sls-*"] } : ESClient)
      ∈ getESClients pEx 0 { clusterName := "", addon := "", filters := [] }
    ∧ (({ urls := "-", logVersion := "", indices := ["sls-*"] } :
        ESClient).indices ≠ []
      ∧ ({ urls := "-", logVersion := "", indices := ["sls-*"] } :
        ESClient).urls ≠ "") :=
  ⟨by decide,
    every_client_wellformed pEx 0
      { clusterName := "", addon := "", filters := [] }
      { urls := "-", logVersion := "", indices := ["sls-*"] } (by decide)⟩

/-- Every pattern produced by the Index Namer starts with the given
prefix. -/
theorem getLogIndices_prefixed (pre orgId : String) (addons : List String)
    (i : String) (h : i ∈ getLogIndices pre orgId addons) :
    ∃ s, i = pre ++ s := by
  unfold getLogIndices at h
  by_cases h1 : addons.length > 0
  · rw [if_pos h1] at h
    rcases List.mem_flatMap.1 h with ⟨a, _, hi⟩
    simp only [List.mem_cons, List.mem_singleton] at hi
    rcases hi with hi | hi | hi
    · exact ⟨a, hi⟩
    · exact ⟨a ++ "-*", by rw [hi, String.append_assoc]⟩
    · simp at hi
  · rw [if_neg h1] at h
    by_cases h2 : orgId.length > 0
    · rw [if_pos h2] at h
      simp only [List.mem_singleton] at h
      exact ⟨orgId, h⟩
    · rw [if_neg h2] at h
      simp only [List.mem_singleton] at h
      exact ⟨"*", h⟩

/-- C7: a deployment row materialized into a client gets log version 2.0.0
and rlogs- prefixed indices exactly when its trimmed collector URL is
non-empty or its log type is log-service, and log version 1.0.0 with
spotlogs- prefixed indices otherwise. -/
theorem log_version_and_index_prefix_rule (p : Provider) (addon : String)
    (d : LogDeployment) (c : ESClient)
    (h : clientOfDeployment p addon d = some c) :
    if (trimSpace d.collectorURL).length > 0 ∨ d.logType = LogTypeLogService
    then c.logVersion = LogVersion2
      ∧ ∀ i ∈ c.indices, ∃ s, i = "rlogs-" ++ s
    else c.logVersion = LogVersion1
      ∧ ∀ i ∈ c.indices, ∃ s, i = "spotlogs-" ++ s := by
  unfold clientOfDeployment at h
  by_cases h1 : d.esURL.length ≤ 0
  · rw [if_pos h1] at h; exact absurd h (by simp)
  · rw [if_neg h1] at h
    by_cases h2 : p.newClientOk d
    · rw [if_pos h2] at h
      have hc := Option.some.inj h
      rw [← hc]
      by_cases hcond : (trimSpace d.collectorURL).length > 0
        ∨ d.logType = LogTypeLogService
      · rw [if_pos hcond]
        simp only [materializeClient]
        rw [if_pos hcond]
        exact ⟨rfl, fun i hi => getLogIndices_prefixed _ _ _ i hi⟩
      · rw [if_neg hcond]
        simp only [materializeClient]
        rw [if_neg hcond]
        exact ⟨rfl, fun i hi => getLogIndices_prefixed _ _ _ i hi⟩
    · rw [if_neg h2] at h; exact absurd h (by simp)

/-- Example deployment rows used by concrete witnesses. -/
def dGood : LogDeployment :=
  { orgID := "1", clusterName := "c", clusterType := 0,
    esURL := "http://es1", esConfig := "", collectorURL := "",
    logType := "" }

def dEmpty : LogDeployment :=
  { orgID := "1", clusterName := "c", clusterType := 0, esURL := "",
    esConfig := "", collectorURL := "", logType := "" }

def dService : LogDeployment :=
  { orgID := "1", clusterName := "c", clusterType := 0,
    esURL := "http://es2", esConfig := "", collectorURL := "",
    logType := "log-service" }

/-- Client expected for the log-service example row. -/
def cService : ESClient :=
  { urls := "http://es2", logVersion := "2.0.0", indices := ["rlogs-1"] }

/-- C7 witness: a log-service row gets version 2.0.0 and rlogs- indices. -/
theorem log_version_and_index_prefix_rule_witness :
    (clientOfDeployment pEx "" dService = some cService)
    ∧ (if (trimSpace dService.collectorURL).length > 0
          ∨ dService.logType = LogTypeLogService
      then cService.logVersion = LogVersion2
        ∧ ∀ i ∈ cService.indices, ∃ s, i = "rlogs-" ++ s
      else cService.logVersion = LogVersion1
        ∧ ∀ i ∈ cService.indices, ∃ s, i = "spotlogs-" ++ s) :=
  ⟨by decide,
    log_version_and_index_prefix_rule pEx "" dService cService (by decide)⟩

theorem firstSeenDedup_nil : firstSeenDedup [] = [] := by
  rw [firstSeenDedup]

theorem firstSeenDedup_cons (x : String) (xs : List String) :
    firstSeenDedup (x :: xs)
      = x :: firstSeenDedup (xs.filter (fun y => y ≠ x)) := by
  rw [firstSeenDedup]

/-- The seen-set loop of the source equals first-seen deduplication of the
keys not yet seen. -/
theorem collectAddonKeys_eq_dedup (l : List LogInstance)
    (seen : List String) :
    collectAddonKeys l seen
      = firstSeenDedup ((l.map (fun i => i.logKey)).filter
          (fun y => decide (y ∉ seen))) := by
  induction l generalizing seen with
  | nil => simp [collectAddonKeys, firstSeenDedup_nil]
  | cons i rest ih =>
    simp only [List.map_cons, List.filter_cons]
    by_cases hmem : i.logKey ∈ seen
    · rw [collectAddonKeys, if_pos hmem, if_neg (by simpa using hmem)]
      exact ih seen
    · rw [collectAddonKeys, if_neg hmem, if_pos (by simpa using hmem),
        firstSeenDedup_cons]
      congr 1
      rw [ih (i.logKey :: seen), List.filter_filter]
      congr 1
      refine List.filter_congr ?_
      intro y _
      rw [show ((fun y => decide (y ≠ i.logKey)) y
            && (fun y => decide (y ∉ seen)) y)
          = (decide (y ≠ i.logKey) && decide (y ∉ seen)) from rfl]
      rw [← Bool.decide_and]
      refine decide_eq_decide.2 ?_
      simp only [List.mem_cons, not_or]

/-- C8: with a non-empty addon supplied, the addon-key list is the
first-seen deduplicated log keys of the sibling group when the instance is
found, and the single supplied addon otherwise. -/
theorem addon_sibling_expansion (p : Provider) (addon : String)
    (h : addon ≠ "") :
    expandAddon p addon
      = match p.getByLogKey addon with
        | some inst =>
          firstSeenDedup
            ((p.getListByClusterAndProjectIdAndWorkspace inst.clusterName
                inst.projectId inst.workspace).map (fun i => i.logKey))
        | none => [addon] := by
  unfold expandAddon
  rw [if_pos ((string_length_pos_iff addon).2 h)]
  cases hk : p.getByLogKey addon with
  | none => rfl
  | some inst =>
    simp only []
    rw [collectAddonKeys_eq_dedup]
    congr 1
    simp

/-- Example instance rows and provider for the C8 witness: the sibling
group of addon a contains a duplicated key. -/
def iEx (k : String) : LogInstance :=
  { logKey := k, clusterName := "c", projectId := "p", workspace := "w" }

def pSib : Provider where
  queryBackES := false
  listClusters := fun _ => some ["c"]
  queryByOrgIDAndClusters := fun _ _ => some [dGood]
  getByLogKey := fun k => if k = "a" then some (iEx "a") else none
  getListByClusterAndProjectIdAndWorkspace :=
    fun _ _ _ => [iEx "a", iEx "b", iEx "a"]
  newClientOk := fun _ => true

/-- C8 witness: the duplicated sibling key is kept once, in first-seen
order. -/
theorem addon_sibling_expansion_witness :
    (("a" : String) ≠ "")
    ∧ expandAddon pSib "a"
        = match pSib.getByLogKey "a" with
          | some inst =>
            firstSeenDedup
              ((pSib.getListByClusterAndProjectIdAndWorkspace
                  inst.clusterName inst.projectId inst.workspace).map
                (fun i => i.logKey))
          | none => ["a"] :=
  ⟨by decide, addon_sibling_expansion pSib "a" (by decide)⟩

/-- C9: a deployment row with an empty connection URL contributes no
client and removing it leaves the batch result unchanged; and a batch
whose remaining rows all carry a non-empty URL and a successful client
construction yields exactly one client per row, in row order. -/
theorem empty_url_row_skipped (p : Provider) (orgID : Int) (addon : String)
    (cns : List String) (pre post : List LogDeployment) (d : LogDeployment)
    (hd : d.esURL = "")
    (hq : p.queryByOrgIDAndClusters orgID cns = some (pre ++ d :: post)) :
    getESClientsFromLogAnalyticsByCluster p orgID addon cns
      = (pre ++ post).filterMap (clientOfDeployment p addon)
    ∧ ((∀ e ∈ pre ++ post, e.esURL ≠ "" ∧ p.newClientOk e = true) →
      getESClientsFromLogAnalyticsByCluster p orgID addon cns
        = (pre ++ post).map (materializeClient p addon)) := by
  have hbase : getESClientsFromLogAnalyticsByCluster p orgID addon cns
      = (pre ++ d :: post).filterMap (clientOfDeployment p addon) := by
    unfold getESClientsFromLogAnalyticsByCluster
    rw [hq]
  have hnone : clientOfDeployment p addon d = none := by
    unfold clientOfDeployment
    rw [if_pos (by rw [hd]; exact Nat.le_refl 0)]
  have hskip : (pre ++ d :: post).filterMap (clientOfDeployment p addon)
      = (pre ++ post).filterMap (clientOfDeployment p addon) := by
    rw [List.filterMap_append, List.filterMap_append,
      List.filterMap_cons, hnone]
  have hgood : ∀ (l : List LogDeployment),
      (∀ e ∈ l, e.esURL ≠ "" ∧ p.newClientOk e = true) →
      l.filterMap (clientOfDeployment p addon)
        = l.map (materializeClient p addon) := by
    intro l
    induction l with
    | nil => intro _; rfl
    | cons e rest ih =>
      intro hl
      have he := hl e (List.mem_cons_self e rest)
      have hsome : clientOfDeployment p addon e
          = some (materializeClient p addon e) := by
        unfold clientOfDeployment
        rw [if_neg (fun hle => he.1 ((string_length_le_zero_iff _).1 hle)),
          if_pos he.2]
      rw [List.filterMap_cons, hsome, List.map_cons,
        ih (fun g hg => hl g (List.mem_cons_of_mem e hg))]
  exact ⟨hbase.trans hskip,
    fun hall => (hbase.trans hskip).trans (hgood _ hall)⟩

/-- Example provider for the C9 witness: a batch of a good row, an
empty-URL row and a log-service row. -/
def pBatch : Provider where
  queryBackES := false
  listClusters := fun _ => some ["c"]
  queryByOrgIDAndClusters := fun _ _ => some [dGood, dEmpty, dService]
  getByLogKey := fun _ => none
  getListByClusterAndProjectIdAndWorkspace := fun _ _ _ => []
  newClientOk := fun _ => true

/-- C9 witness: the empty-URL middle row is dropped and the two good rows
map to their two clients in order. -/
theorem empty_url_row_skipped_witness :
    (dEmpty.esURL = "")
    ∧ getESClientsFromLogAnalyticsByCluster pBatch 1 "" ["c"]
        = ([dGood] ++ [dService]).filterMap (clientOfDeployment pBatch "")
    ∧ getESClientsFromLogAnalyticsByCluster pBatch 1 "" ["c"]
        = ([dGood] ++ [dService]).map (materializeClient pBatch "") :=
  ⟨rfl,
    (empty_url_row_skipped pBatch 1 "" ["c"] [dGood] [dService] dEmpty
      rfl rfl).1,
    (empty_url_row_skipped pBatch 1 "" ["c"] [dGood] [dService] dEmpty
      rfl rfl).2 (by decide)⟩

end Loghub
